import Mathlib

/-!
Shallow embedding of the spreadsheet-normalization engine of this repository
(`backend/utils.py` and the `make_fingerprint` / tx_type backfill parts of
`backend/main.py`).

Modelling conventions:
* A loaded cell (pandas with `dtype=str, header=None`) is `Option String`:
  `none` is a missing cell (NaN), `some s` a string cell.
* Python floats are modelled by `PFloat`: exact rationals for finite values
  plus `nan` / `pinf` / `ninf`.  Decimal literals are given their exact
  rational value (no binary rounding, no overflow-to-infinity); all claims
  settled here depend only on control flow and sign tests, not on rounding.
* Code that can raise is modelled with `Except`; a detector that merely
  declines returns `.ok none`.
-/

/-- The whitespace characters of Python's `str.strip()` / regex `\s`
(the ASCII ones plus the common Unicode spaces that occur in spreadsheets). -/
def isPySpace (c : Char) : Bool :=
  c = ' ' || c = '\t' || c = '\n' || c = '\r' || c = '\x0b' || c = '\x0c' ||
  c = '\u0085' || c = ' ' || c = ' ' || c = ' ' || c = ' ' ||
  c = ' ' || c = ' ' || c = ' ' || c = ' ' || c = ' ' ||
  c = ' ' || c = ' ' || c = ' ' || c = ' ' || c = ' ' ||
  c = ' ' || c = ' ' || c = '　'

/-- Strip `isPySpace` characters from both ends of a character list
(Python `str.strip()`). -/
def stripEnds (cs : List Char) : List Char :=
  ((cs.dropWhile isPySpace).reverse.dropWhile isPySpace).reverse

/-- Python `str.strip()`. -/
def pyStrip (s : String) : String := ⟨stripEnds s.toList⟩

/-- Python `str.lower()` (ASCII case folding; the Korean text in this code
base is caseless, so this matches Python's Unicode lowering on all inputs
that occur). -/
def lowerStr (s : String) : String := ⟨s.toList.map Char.toLower⟩

/-- A cell of a raw spreadsheet table: `none` is NaN (missing). -/
abbrev PCell := Option String

/-- Python `str(x)` on a cell of a `dtype=str` frame: NaN prints as "nan". -/
def pyStr (c : PCell) : String :=
  match c with
  | none => "nan"
  | some s => s

/-- Value of a digit list, most significant first. -/
def digitsVal (ds : List Char) : ℕ :=
  ds.foldl (fun a c => 10 * a + (c.toNat - 48)) 0

/-- Kernel-computable rational subtraction (the Batteries `Rat.sub` is
`@[irreducible]`, which blocks `decide`); equal to `a - b` by `qSub_eq`. -/
def qSub (a b : ℚ) : ℚ :=
  Rat.normalize (a.num * b.den - b.num * a.den) (a.den * b.den)
    (Nat.mul_ne_zero a.den_nz b.den_nz)

theorem qSub_eq (a b : ℚ) : qSub a b = a - b := (Rat.sub_def a b).symm

/-- Kernel-computable multiplication by a natural number. -/
def qMulNat (a : ℚ) (k : ℕ) : ℚ :=
  Rat.normalize (a.num * k) a.den a.den_nz

/-- Kernel-computable negation. -/
def qNeg (a : ℚ) : ℚ :=
  ⟨-a.num, a.den, a.den_nz, by rw [Int.natAbs_neg]; exact a.reduced⟩

theorem qNeg_eq (a : ℚ) : qNeg a = -a := rfl

/-- The exact rational value of a decimal literal with integer digits `ip`,
fraction digits `fp`, decimal exponent `e` and sign `neg`. -/
def qOfDigits (ip fp : List Char) (e : ℤ) (neg : Bool) : ℚ :=
  Rat.normalize
    ((if neg then -1 else 1) *
      ((digitsVal ip * 10 ^ fp.length + digitsVal fp : ℕ) : ℤ) * ((10 ^ e.toNat : ℕ) : ℤ))
    (10 ^ fp.length * 10 ^ (-e).toNat)
    (Nat.mul_ne_zero (pow_ne_zero _ (by decide)) (pow_ne_zero _ (by decide)))

/-- One half (kernel-computable literal). -/
def halfQ : ℚ := ⟨1, 2, by decide, by decide⟩

/-- Consume a Python float `digitpart` — `digit (("_")? digit)*` — from the
front of the list; returns the digits (underscores removed) and the rest.
Must be entered on a digit (see `digitPartOpt`). -/
def dpGo : List Char → List Char × List Char
  | [] => ([], [])
  | c :: rest =>
    if c.isDigit then
      match dpGo rest with
      | (ds, r) => (c :: ds, r)
    else if c = '_' then
      match rest with
      | d :: rest2 =>
        if d.isDigit then
          match dpGo rest2 with
          | (ds, r) => (d :: ds, r)
        else ([], c :: rest)
      | [] => ([], [c])
    else ([], c :: rest)

/-- Consume an optional `digitpart`: empty result if the front is not a
digit (a leading underscore is not accepted by Python's float grammar). -/
def digitPartOpt (cs : List Char) : List Char × List Char :=
  match cs with
  | c :: _ => if c.isDigit then dpGo cs else ([], cs)
  | [] => ([], cs)

/-- Model of a Python `float` value: exact rational for finite values. -/
inductive PFloat where
  | nan : PFloat
  | pinf : PFloat
  | ninf : PFloat
  | val : ℚ → PFloat
deriving DecidableEq

/-- Assemble the rational value of a parsed decimal literal:
integer digits `ip`, fraction digits `fp`, exponent `e`, sign `neg`. -/
def mkVal (neg : Bool) (ip fp : List Char) (e : ℤ) : PFloat :=
  .val (qOfDigits ip fp e neg)

/-- Python `float(s)`: optional surrounding whitespace, optional sign, then
`inf`/`infinity`/`nan` (case-insensitive) or a decimal literal with optional
fraction, exponent, and underscores between digits.  `none` models a raised
`ValueError`.  Finite literals get their exact rational value. -/
def pyFloat? (s : String) : Option PFloat :=
  let cs0 := stripEnds s.toList
  let signed : Bool × List Char :=
    match cs0 with
    | '+' :: t => (false, t)
    | '-' :: t => (true, t)
    | _ => (false, cs0)
  let neg := signed.1
  let cs1 := signed.2
  let low := cs1.map Char.toLower
  if low = "inf".toList || low = "infinity".toList then
    some (if neg then .ninf else .pinf)
  else if low = "nan".toList then some .nan
  else
    let ipr := digitPartOpt cs1
    let ip := ipr.1
    let fpr : List Char × List Char :=
      match ipr.2 with
      | '.' :: t => digitPartOpt t
      | _ => ([], ipr.2)
    let fp := fpr.1
    if ip.isEmpty && fp.isEmpty then none
    else
      match fpr.2 with
      | [] => some (mkVal neg ip fp 0)
      | e :: t =>
        if e = 'e' || e = 'E' then
          let esigned : Bool × List Char :=
            match t with
            | '+' :: u => (false, u)
            | '-' :: u => (true, u)
            | _ => (false, t)
          let epr := digitPartOpt esigned.2
          if epr.1.isEmpty || !epr.2.isEmpty then none
          else some (mkVal neg ip fp
            (if esigned.1 then -(digitsVal epr.1 : ℤ) else (digitsVal epr.1 : ℤ)))
        else none

/-- `re.sub(r"[₩원,\s]", "", str(v))` — drop the currency sign, the word
"원", commas and whitespace. -/
def stripMoney (s : String) : String :=
  ⟨s.toList.filter (fun c => !(c = '₩' || c = '원' || c = ',' || isPySpace c))⟩

/-- `_parse_money` (utils.py 244-253).  Input `none` models both Python
`None` and a NaN cell (both return 0.0 at line 245-246).  An empty string
after stripping, and any remainder `float()` rejects, give 0.0; otherwise
the `float()` value (which is NaN for the remainder "nan", etc.). -/
def parse_money (v : PCell) : PFloat :=
  match v with
  | none => .val 0
  | some s =>
    let t := stripMoney s
    if t = "" then .val 0
    else
      match pyFloat? t with
      | some p => p
      | none => .val 0

/-- Python float subtraction on the `PFloat` model (exact on finite values). -/
def psub : PFloat → PFloat → PFloat
  | .nan, _ => .nan
  | _, .nan => .nan
  | .pinf, .pinf => .nan
  | .ninf, .ninf => .nan
  | .pinf, _ => .pinf
  | .ninf, _ => .ninf
  | .val _, .pinf => .ninf
  | .val _, .ninf => .pinf
  | .val a, .val b => .val (qSub a b)

/-- Python `x > 0` on a float: False for NaN. -/
def pfPos : PFloat → Bool
  | .val q => decide (0 < q)
  | .pinf => true
  | _ => false

/-- Python `x < 0` on a float: False for NaN. -/
def pfNeg : PFloat → Bool
  | .val q => decide (q < 0)
  | .ninf => true
  | _ => false

/-- A calendar date (what `pandas.Timestamp.date()` / `datetime.date` carry). -/
structure PDate where
  year : ℕ
  month : ℕ
  day : ℕ
deriving DecidableEq

/-- Days in a month, Gregorian. -/
def daysInMonth (y m : ℕ) : ℕ :=
  if m = 2 then
    if y % 4 = 0 && (y % 100 ≠ 0 || y % 400 = 0) then 29 else 28
  else if m = 4 || m = 6 || m = 9 || m = 11 then 30
  else 31

/-- Grab one or two leading digits. -/
def grabD12 (cs : List Char) : Option (ℕ × List Char) :=
  let ds := cs.takeWhile Char.isDigit
  if ds.length = 1 || ds.length = 2 then some (digitsVal ds, cs.drop ds.length)
  else none

/-- Grab exactly two leading digits. -/
def grabD2 (cs : List Char) : Option (ℕ × List Char) :=
  let ds := cs.takeWhile Char.isDigit
  if ds.length = 2 then some (digitsVal ds, cs.drop 2) else none

/-- Optional time suffix `HH:MM(:SS)?` after a space; must consume the rest. -/
def timeTailOk (cs : List Char) : Bool :=
  match cs with
  | [] => true
  | ' ' :: t =>
    (match grabD12 t with
     | some (h, ':' :: t2) =>
       (match grabD2 t2 with
        | some (mi, rest) =>
          (match rest with
           | [] => decide (h < 24) && decide (mi < 60)
           | ':' :: t3 =>
             (match grabD2 t3 with
              | some (se, []) => decide (h < 24) && decide (mi < 60) && decide (se < 60)
              | _ => false)
           | _ => false)
        | none => false)
     | _ => false)
  | _ => false

/-- Model of `pandas.to_datetime(s, errors="coerce")` restricted to the
layouts bank statements in this code base use: `YYYY<sep>M<sep>D` with
`sep` one of `- . /`, optionally followed by a `HH:MM(:SS)` time; anything
else — including any non-date text — is NaT (`none`), as is a date outside
pandas' nanosecond timestamp range (approximated as years 1678..2261). -/
def pdToDatetime? (s : String) : Option PDate :=
  let cs := stripEnds s.toList
  let ys := cs.takeWhile Char.isDigit
  if ys.length ≠ 4 then none
  else
    match cs.drop 4 with
    | sep :: r2 =>
      if sep = '-' || sep = '.' || sep = '/' then
        match grabD12 r2 with
        | some (m, sep2 :: r3) =>
          if sep2 = sep then
            match grabD12 r3 with
            | some (d, r4) =>
              let y := digitsVal ys
              if 1 ≤ m && m ≤ 12 && 1 ≤ d && d ≤ daysInMonth y m &&
                 1678 ≤ y && y ≤ 2261 && timeTailOk r4 then
                some ⟨y, m, d⟩
              else none
            | none => none
          else none
        | _ => none
      else none
    | [] => none

/-- An untyped raw table as produced by the loader (`header=None`,
`dtype=str`): `ncols` is `df.shape[1]`; rows are rectangular in pandas,
which theorems assume where it matters. -/
structure RawTable where
  ncols : ℕ
  rows : List (List PCell)
deriving DecidableEq

/-- Cell `j` of a row (missing positions read as NaN). -/
def cellAt (r : List PCell) (j : ℕ) : PCell := (r.get? j).join

/-- Row `i` of a table (reads as empty if out of range). -/
def rowAt (t : RawTable) (i : ℕ) : List PCell := (t.rows.get? i).getD []

/-- First index satisfying `p` (our fully-controlled `findIdx?`). -/
def findIdxQ (p : α → Bool) : List α → Option ℕ
  | [] => none
  | a :: t => if p a then some 0 else (findIdxQ p t).map (· + 1)

/-- First element satisfying `p`. -/
def findFirst (p : α → Bool) : List α → Option α
  | [] => none
  | a :: t => if p a then some a else findFirst p t

/-- `sep.join`-style list joining. -/
def joinSep (sep : String) : List String → String
  | [] => ""
  | [s] => s
  | s :: t => s ++ sep ++ joinSep sep t

/-- Match, at the head of `cs`, a sequence of literal segments separated by
`.?` gaps (one optional non-newline character between consecutive segments).
This is exactly the shape of the patterns `받는.?분` and `보내.?는.?분`
(`re` default: `.` does not match a newline). -/
def matchSegsAt : List (List Char) → List Char → Bool
  | [], _ => true
  | [seg], cs => seg.isPrefixOf cs
  | seg :: seg2 :: rest, cs =>
    seg.isPrefixOf cs &&
      (let r := cs.drop seg.length
       matchSegsAt (seg2 :: rest) r ||
         (match r with
          | c :: r2 => c ≠ '\n' && matchSegsAt (seg2 :: rest) r2
          | [] => false))

/-- `re.search` of a segments-with-optional-gaps pattern: try every start
position (including the end of the string). -/
def searchSegs (segs : List (List Char)) : List Char → Bool
  | [] => matchSegsAt segs []
  | c :: t => matchSegsAt segs (c :: t) || searchSegs segs t

/-- Substring containment (`re.search` of a literal pattern). -/
def containsSeg (cs : List Char) (lit : String) : Bool :=
  searchSegs [lit.toList] cs

/-- `re.search(r"거래\s*시간", s)`: the literal `거래`, any run of
whitespace, then `시간`.  Greedy whitespace consumption is equivalent to
the regex here because `시` is not a whitespace character. -/
def matchTimeGapAt (cs : List Char) : Bool :=
  "거래".toList.isPrefixOf cs &&
    "시간".toList.isPrefixOf ((cs.drop 2).dropWhile isPySpace)

/-- Search version of `matchTimeGapAt`. -/
def searchTimeGap : List Char → Bool
  | [] => matchTimeGapAt []
  | c :: t => matchTimeGapAt (c :: t) || searchTimeGap t

/-- `_norm_str` (utils.py 220-224): `str(x)` is applied by the caller
(`pyStr`); replace NBSP by a space, then strip. -/
def normStr (s : String) : String :=
  pyStrip ⟨s.toList.map (fun c => if c = '\u00A0' then ' ' else c)⟩

/-- `_has_kw(s, pats)` body shared by the keyword testers: normalize then
case-insensitively search.  All patterns below are already lower-case, so
lowering the subject implements `re.I`. -/
def kwSubject (s : String) : List Char :=
  (lowerStr (normStr s)).toList

/-- `_HEADER_KEYWORDS["date"]`: 날짜 | 거래일 | 일자 | 승인일자 | 거래\s*시간. -/
def kwDate (s : String) : Bool :=
  let cs := kwSubject s
  containsSeg cs "날짜" || containsSeg cs "거래일" || containsSeg cs "일자" ||
    containsSeg cs "승인일자" || searchTimeGap cs

/-- `_HEADER_KEYWORDS["desc"]`: 내용 | 적요 | 거래내용 | 가맹점명 | 받는.?분 | 보내.?는.?분. -/
def kwDesc (s : String) : Bool :=
  let cs := kwSubject s
  containsSeg cs "내용" || containsSeg cs "적요" || containsSeg cs "거래내용" ||
    containsSeg cs "가맹점명" ||
    searchSegs ["받는".toList, "분".toList] cs ||
    searchSegs ["보내".toList, "는".toList, "분".toList] cs

/-- `_HEADER_KEYWORDS["memo"]`: 메모 | 비고 (not consulted by the header scan). -/
def kwMemo (s : String) : Bool :=
  let cs := kwSubject s
  containsSeg cs "메모" || containsSeg cs "비고"

/-- `_HEADER_KEYWORDS["dep"]`: 입금 | 받은금액 | credit. -/
def kwDep (s : String) : Bool :=
  let cs := kwSubject s
  containsSeg cs "입금" || containsSeg cs "받은금액" || containsSeg cs "credit"

/-- `_HEADER_KEYWORDS["wd"]`: 출금 | 보낸금액 | debit. -/
def kwWd (s : String) : Bool :=
  let cs := kwSubject s
  containsSeg cs "출금" || containsSeg cs "보낸금액" || containsSeg cs "debit"

/-- `_HEADER_KEYWORDS["amt"]`: 금액 | 이체금액 | 거래금액. -/
def kwAmt (s : String) : Bool :=
  let cs := kwSubject s
  containsSeg cs "금액" || containsSeg cs "이체금액" || containsSeg cs "거래금액"

/-- Keyword hits a single cell contributes in `_guess_header_row`: one per
matching category (date, desc, amt, dep, wd) — a cell can contribute up to
five, and two cells of the *same* category both count. -/
def cellHits (c : PCell) : ℕ :=
  let s := normStr (pyStr c)
  (if kwDate s then 1 else 0) + (if kwDesc s then 1 else 0) +
    (if kwAmt s then 1 else 0) + (if kwDep s then 1 else 0) +
    (if kwWd s then 1 else 0)

/-- Total keyword hits of a row (utils.py 233-239). -/
def rowHits (r : List PCell) : ℕ := (r.map cellHits).sum

/-- `_guess_header_row` (utils.py 230-242) with its default `scan_rows=80`
(the only call site uses the default): first row among the first 80 whose
total hit count is ≥ 2. -/
def guessHeaderRow (t : RawTable) : Option ℕ :=
  findIdxQ (fun r => decide (2 ≤ rowHits r)) (t.rows.take 80)

/-- `_safe_lower` (utils.py 318-323): `none` models both Python `None` and
NaN (both return ""); otherwise lower-case. -/
def safeLower (v : PCell) : String :=
  match v with
  | none => ""
  | some s => lowerStr s

/-- Substring containment `kw in s` (Python `in` on strings). -/
def strContains (s kw : String) : Bool :=
  containsSeg s.toList kw

/-- A classification rule as `apply_rules` reads it (dict with optional
keys; `none` models an absent key or a null value, and `is_fixed` is read
through `bool(...)`). -/
structure CRule where
  keyword : PCell
  target : PCell
  category : PCell
  category_l1 : PCell
  category_l2 : PCell
  category_l3 : PCell
  is_fixed : Bool
deriving DecidableEq

/-- The record fields `apply_rules` consults. -/
structure CRecord where
  description : PCell
  memo : PCell
  vendor_normalized : PCell
deriving DecidableEq

/-- A classification result. -/
structure CResult where
  category : String
  category_l1 : PCell
  category_l2 : PCell
  category_l3 : PCell
  is_fixed : Bool
deriving DecidableEq

/-- The no-match default result (utils.py 330-336). -/
def defaultCResult : CResult :=
  { category := "미분류", category_l1 := none, category_l2 := none,
    category_l3 := none, is_fixed := false }

/-- Python truthiness for an optional string: `None` and `""` are falsy. -/
def pyTruthy (v : PCell) : Bool :=
  match v with
  | none => false
  | some s => s ≠ ""

/-- Python `a or b` over optional strings with a string default:
first truthy value wins. -/
def pyOrChain (vs : List PCell) (dflt : String) : String :=
  match findFirst pyTruthy vs with
  | some (some s) => s
  | _ => dflt

/-- `tgt = (r.get("target") or "any").lower()`. -/
def ruleTarget (r : CRule) : String :=
  lowerStr (match r.target with
            | none => "any"
            | some t => if t = "" then "any" else t)

/-- Does rule `r` fire on `row`?  Implements the `continue` on an empty
keyword plus the `hit` disjunction of utils.py 338-349. -/
def ruleHit (row : CRecord) (r : CRule) : Bool :=
  let desc := safeLower row.description
  let memo := safeLower row.memo
  let vendor := safeLower row.vendor_normalized
  let kw := safeLower r.keyword
  let tgt := ruleTarget r
  kw ≠ "" &&
    ((tgt = "description" && strContains desc kw) ||
     (tgt = "memo" && strContains memo kw) ||
     (tgt = "vendor" && strContains vendor kw) ||
     (tgt = "any" && (strContains desc kw || strContains memo kw || strContains vendor kw)))

/-- The result built from a matching rule (utils.py 350-360):
`cat = r.get("category") or c3 or c2 or c1 or "미분류"` — Python `or`, so a
present-but-empty string also falls through. -/
def resultOfRule (r : CRule) : CResult :=
  { category := pyOrChain [r.category, r.category_l3, r.category_l2, r.category_l1] "미분류",
    category_l1 := r.category_l1,
    category_l2 := r.category_l2,
    category_l3 := r.category_l3,
    is_fixed := r.is_fixed }

/-- `apply_rules` (utils.py 325-362): first-match scan over the rule list. -/
def apply_rules (row : CRecord) : List CRule → CResult
  | [] => defaultCResult
  | r :: rest =>
    if ruleHit row r then resultOfRule r else apply_rules row rest

/-- The distinct failure points of `unify_columns` and the detectors.
`valueCast` models the `ValueError` pandas raises in `.astype(float)`;
`lengthMismatch` models the `ValueError` raised when a list of the wrong
length is assigned as a DataFrame column. -/
inductive UErr where
  | headerNotFound : UErr
  | missingCols : List String → UErr
  | noAmountCol : UErr
  | valueCast : String → UErr
  | lengthMismatch : ℕ → ℕ → UErr
deriving DecidableEq

/-- The Python message of each failure (for reference against the source). -/
def UErr.msg : UErr → String
  | .headerNotFound => "헤더를 찾지 못했습니다."
  | .missingCols cs =>
    "필수 컬럼 누락: [" ++ joinSep ", " (cs.map (fun c => "\x27" ++ c ++ "\x27")) ++ "]"
  | .noAmountCol => "금액 컬럼 없음"
  | .valueCast m => m
  | .lengthMismatch a b =>
    "Length of values (" ++ toString a ++ ") does not match length of index (" ++
      toString b ++ ")"

/-- A row of the unified table.  The three detectors and the generic
fallback produce different column sets; absent columns are `none`. -/
structure URow where
  date : Option PDate
  description : PCell
  amount : PFloat
  balance : PFloat
  branch : Option PCell
  tx_type : Option String
  typeCol : Option PCell
  inAmt : Option PFloat
  outAmt : Option PFloat
deriving DecidableEq

/-- `"".join(str(x) for x in df.iloc[i].tolist())`. -/
def rowConcat (r : List PCell) : String :=
  r.foldl (fun a c => a ++ pyStr c) ""

/-- Woori signature (utils.py 102-105): the concatenated row text contains
거래일시, 적요 and 입금. -/
def wooriSig (r : List PCell) : Bool :=
  let s := rowConcat r
  strContains s "거래일시" && strContains s "적요" && strContains s "입금"

/-- KB signature (utils.py 159-164): 거래일시 plus 보낸분 or 받는분. -/
def kbSig (r : List PCell) : Bool :=
  let s := rowConcat r
  strContains s "거래일시" && (strContains s "보낸분" || strContains s "받는분")

/-- Header index scan of a detector: first hit among the first 30 rows. -/
def hdrIdx30 (sig : List PCell → Bool) (t : RawTable) : Option ℕ :=
  findIdxQ sig (t.rows.take 30)

/-- `wooriHdrIdx? t`: header row of the Woori layout, if any. -/
def wooriHdrIdx? (t : RawTable) : Option ℕ := hdrIdx30 wooriSig t

/-- `kbHdrIdx? t`: header row of the KB layout, if any. -/
def kbHdrIdx? (t : RawTable) : Option ℕ := hdrIdx30 kbSig t

/-- Column names from a header row: `[str(x).strip() for x in ...]`. -/
def hdrCols (t : RawTable) (idx : Option ℕ) : List String :=
  match idx with
  | some i => (rowAt t i).map (fun c => pyStrip (pyStr c))
  | none => []

/-- The Woori column names after trimming. -/
def wooriCols (t : RawTable) : List String := hdrCols t (wooriHdrIdx? t)

/-- The KB column names after trimming. -/
def kbCols (t : RawTable) : List String := hdrCols t (kbHdrIdx? t)

/-- Data rows below the detected header. -/
def dataBelow (t : RawTable) (idx : Option ℕ) : List (List PCell) :=
  match idx with
  | some i => t.rows.drop (i + 1)
  | none => []

/-- Woori data rows. -/
def wooriDataRows (t : RawTable) : List (List PCell) := dataBelow t (wooriHdrIdx? t)

/-- KB data rows. -/
def kbDataRows (t : RawTable) : List (List PCell) := dataBelow t (kbHdrIdx? t)

/-- Index of the first column with the given name (pandas label access;
faithful when header names are unique, which pandas otherwise rejects for
the chained `.str` accessor used in the source). -/
def colIdxQ (cols : List String) (n : String) : ℕ :=
  (findIdxQ (fun c => c = n) cols).getD 0

def wooriNeeded : List String :=
  ["거래일시", "적요", "기재내용", "지급(원)", "입금(원)", "거래후 잔액(원)", "취급점"]

def kbNeeded : List String :=
  ["거래일시", "보낸분/받는분", "출금액(원)", "입금액(원)", "잔액(원)"]

/-- The money-column cleaning of both detectors (utils.py 117-126, 176-185):
`astype(str)`, remove all "," and "원" characters, map the exact values "-"
and "" to "0". -/
def moneyClean (c : PCell) : String :=
  let s := ⟨(pyStr c).toList.filter (fun ch => ch ≠ ',' && ch ≠ '원')⟩
  let s := if s = "-" then "0" else s
  if s = "" then "0" else s

/-- One cell of `.astype(float)`: a `ValueError` if `float()` rejects the
cleaned string. -/
def moneyConv (c : PCell) : Except UErr PFloat :=
  match pyFloat? (moneyClean c) with
  | some p => .ok p
  | none => .error (.valueCast ("could not convert string to float: \x27" ++ moneyClean c ++ "\x27"))

/-- Effectful map over a list, failing at the first error. -/
def traverseE (f : α → Except ε β) : List α → Except ε (List β)
  | [] => .ok []
  | a :: t =>
    match f a with
    | .error e => .error e
    | .ok b =>
      match traverseE f t with
      | .error e => .error e
      | .ok bs => .ok (b :: bs)

/-- `.astype(float)` over one column of the data rows. -/
def convCol (rows : List (List PCell)) (j : ℕ) : Except UErr (List PFloat) :=
  traverseE (fun r => moneyConv (cellAt r j)) rows

/-- Build one unified Woori row (utils.py 128-146): the date cell was
non-missing (kept by `dropna`), then `to_datetime(errors="coerce")` may
still leave a NaT; amount = 입금 − 지급; tx_type from the amount's sign. -/
def mkWooriRow (src : List PCell) (jd jt jds jbr : ℕ) (o i b : PFloat) : URow :=
  { date := pdToDatetime? (pyStr (cellAt src jd)),
    description := cellAt src jds,
    amount := psub i o,
    balance := b,
    branch := some (cellAt src jbr),
    tx_type := some (if pfPos (psub i o) then "IN" else "OUT"),
    typeCol := some (cellAt src jt),
    inAmt := some i,
    outAmt := some o }

/-- `parse_woori_excel` (utils.py 96-148).  `.ok none` is a no-match;
`.error` models the `ValueError` escaping from `.astype(float)`. -/
def parse_woori_excel (t : RawTable) : Except UErr (Option (List URow)) :=
  if t.ncols < 5 then .ok none
  else
    match wooriHdrIdx? t with
    | none => .ok none
    | some _ =>
      if !(wooriNeeded.all (fun n => (wooriCols t).contains n)) then .ok none
      else
        match convCol (wooriDataRows t) (colIdxQ (wooriCols t) "지급(원)") with
        | .error e => .error e
        | .ok outs =>
          match convCol (wooriDataRows t) (colIdxQ (wooriCols t) "입금(원)") with
          | .error e => .error e
          | .ok ins =>
            match convCol (wooriDataRows t) (colIdxQ (wooriCols t) "거래후 잔액(원)") with
            | .error e => .error e
            | .ok bals =>
              .ok (some ((((wooriDataRows t).zip (outs.zip (ins.zip bals))).filter
                  (fun q => (cellAt q.1 (colIdxQ (wooriCols t) "거래일시")).isSome)).map
                (fun q =>
                  mkWooriRow q.1 (colIdxQ (wooriCols t) "거래일시")
                    (colIdxQ (wooriCols t) "적요") (colIdxQ (wooriCols t) "기재내용")
                    (colIdxQ (wooriCols t) "취급점") q.2.1 q.2.2.1 q.2.2.2)))

/-- Build one unified KB row (utils.py 187-204). -/
def mkKbRow (src : List PCell) (jd jds : ℕ) (o i b : PFloat) : URow :=
  { date := pdToDatetime? (pyStr (cellAt src jd)),
    description := cellAt src jds,
    amount := psub i o,
    balance := b,
    branch := none,
    tx_type := some (if pfPos (psub i o) then "IN" else "OUT"),
    typeCol := none,
    inAmt := some i,
    outAmt := some o }

/-- `parse_kb_excel` (utils.py 153-206). -/
def parse_kb_excel (t : RawTable) : Except UErr (Option (List URow)) :=
  if t.ncols < 5 then .ok none
  else
    match kbHdrIdx? t with
    | none => .ok none
    | some _ =>
      if !(kbNeeded.all (fun n => (kbCols t).contains n)) then .ok none
      else
        match convCol (kbDataRows t) (colIdxQ (kbCols t) "출금액(원)") with
        | .error e => .error e
        | .ok outs =>
          match convCol (kbDataRows t) (colIdxQ (kbCols t) "입금액(원)") with
          | .error e => .error e
          | .ok ins =>
            match convCol (kbDataRows t) (colIdxQ (kbCols t) "잔액(원)") with
            | .error e => .error e
            | .ok bals =>
              .ok (some ((((kbDataRows t).zip (outs.zip (ins.zip bals))).filter
                  (fun q => (cellAt q.1 (colIdxQ (kbCols t) "거래일시")).isSome)).map
                (fun q =>
                  mkKbRow q.1 (colIdxQ (kbCols t) "거래일시")
                    (colIdxQ (kbCols t) "보낸분/받는분") q.2.1 q.2.2.1 q.2.2.2)))

/-- `df.dropna(how="all", axis=1)`: drop columns whose every cell is NaN. -/
def dropEmptyCols (t : RawTable) : RawTable :=
  let keep := (List.range t.ncols).filter (fun j => t.rows.any (fun r => (cellAt r j).isSome))
  ⟨keep.length, t.rows.map (fun r => keep.map (fun j => cellAt r j))⟩

/-- `df.dropna(how="all", axis=0)`: drop rows whose every cell is NaN. -/
def dropEmptyRows (t : RawTable) : RawTable :=
  ⟨t.ncols, t.rows.filter (fun r => r.any (fun c => c.isSome))⟩

/-- The table the generic fallback scans (utils.py 266-267). -/
def genTable (t : RawTable) : RawTable := dropEmptyRows (dropEmptyCols t)

/-- Header row picked by the generic fallback. -/
def genHdrIdx? (t : RawTable) : Option ℕ := guessHeaderRow (genTable t)

/-- The normalized header names (utils.py 272). -/
def genCols (t : RawTable) : List String :=
  match genHdrIdx? t with
  | some i => (rowAt (genTable t) i).map (fun c => normStr (pyStr c))
  | none => []

/-- The data rows below the generic header. -/
def genData (t : RawTable) : List (List PCell) :=
  match genHdrIdx? t with
  | some i => (genTable t).rows.drop (i + 1)
  | none => []

/-- First column whose name matches the date keywords (utils.py 278). -/
def genDateIdx? (t : RawTable) : Option ℕ := findIdxQ kwDate (genCols t)

/-- First description column (utils.py 279). -/
def genDescIdx? (t : RawTable) : Option ℕ := findIdxQ kwDesc (genCols t)

/-- First credit/inflow column (utils.py 280). -/
def genDepIdx? (t : RawTable) : Option ℕ := findIdxQ kwDep (genCols t)

/-- First debit/outflow column (utils.py 281). -/
def genWdIdx? (t : RawTable) : Option ℕ := findIdxQ kwWd (genCols t)

/-- First generic amount column (utils.py 282). -/
def genAmtIdx? (t : RawTable) : Option ℕ := findIdxQ kwAmt (genCols t)

/-- `_parse_money` over an optionally-present column: a missing side of the
credit/debit pair is the all-zero column `[0]*len(df)` (utils.py 288-289). -/
def optMoney (src : List PCell) (j? : Option ℕ) : PFloat :=
  match j? with
  | some j => parse_money (cellAt src j)
  | none => .val 0

/-- The per-row amount of the generic fallback (utils.py 287-294):
credit − debit when either side exists, else the generic amount column. -/
def genAmount (t : RawTable) (src : List PCell) : PFloat :=
  match genDepIdx? t, genWdIdx? t with
  | none, none =>
    match genAmtIdx? t with
    | some j => parse_money (cellAt src j)
    | none => .val 0
  | d?, w? => psub (optMoney src d?) (optMoney src w?)

/-- The row filter of utils.py 301: drop rows whose date failed to parse
*and* whose description is blank after `astype(str).strip()` (a NaN
description prints as "nan" and therefore counts as non-blank). -/
def genKeep (t : RawTable) (src : List PCell) : Bool :=
  !((pdToDatetime? (pyStr (cellAt src ((genDateIdx? t).getD 0)))).isNone &&
    (pyStrip (pyStr (cellAt src ((genDescIdx? t).getD 0))) == ""))

/-- The data rows that survive the filter. -/
def genKeptSrc (t : RawTable) : List (List PCell) :=
  (genData t).filter (genKeep t)

/-- The recognized balance column (utils.py 305-309), tried in the fixed
order 잔액, 거래후 잔액, 잔액(원). -/
def genBalIdx? (t : RawTable) : Option ℕ :=
  let cs := genCols t
  if cs.contains "잔액" then findIdxQ (fun c => c = "잔액") cs
  else if cs.contains "거래후 잔액" then findIdxQ (fun c => c = "거래후 잔액") cs
  else if cs.contains "잔액(원)" then findIdxQ (fun c => c = "잔액(원)") cs
  else none

/-- The balance list of utils.py 308: parsed over *all* data rows (not the
filtered frame). -/
def genBalVals (t : RawTable) : List PFloat :=
  match genBalIdx? t with
  | some j => (genData t).map (fun r => parse_money (cellAt r j))
  | none => []

/-- One unified row of the generic fallback (utils.py 296-300). -/
def mkGenRow (t : RawTable) (src : List PCell) (bal : PFloat) : URow :=
  { date := pdToDatetime? (pyStr (cellAt src ((genDateIdx? t).getD 0))),
    description := cellAt src ((genDescIdx? t).getD 0),
    amount := genAmount t src,
    balance := bal,
    branch := none,
    tx_type := none,
    typeCol := none,
    inAmt := none,
    outAmt := none }

/-- The generic-fallback part of `unify_columns` (utils.py 266-312).
The balance assignment at line 308 sets a full-length list as a column of
the already-filtered frame: pandas raises unless the lengths agree, which
`lengthMismatch` models. -/
def unifyGeneric (t : RawTable) : Except UErr (List URow) :=
  match genHdrIdx? t with
  | none => .error .headerNotFound
  | some _ =>
    if (genDateIdx? t).isNone || (genDescIdx? t).isNone then
      .error (.missingCols (genCols t))
    else if (genDepIdx? t).isNone && (genWdIdx? t).isNone && (genAmtIdx? t).isNone then
      .error .noAmountCol
    else
      match genBalIdx? t with
      | some _ =>
        if (genBalVals t).length = (genKeptSrc t).length then
          .ok (((genKeptSrc t).zip (genBalVals t)).map (fun p => mkGenRow t p.1 p.2))
        else .error (.lengthMismatch (genBalVals t).length (genKeptSrc t).length)
      | none => .ok ((genKeptSrc t).map (fun r => mkGenRow t r (.val 0)))

/-- `unify_columns` (utils.py 255-312): Woori, then KB, then the generic
fallback; an exception from a detector propagates. -/
def unify_columns (t : RawTable) : Except UErr (List URow) :=
  match parse_woori_excel t with
  | .error e => .error e
  | .ok (some w) => .ok w
  | .ok none =>
    match parse_kb_excel t with
    | .error e => .error e
    | .ok (some k) => .ok k
    | .ok none => unifyGeneric t

/-- `df["amount"].apply(lambda x: "IN" if float(x) > 0 else "OUT")`
(main.py 151, and the same lambda inside both detectors). -/
def backfillTxType (a : PFloat) : String :=
  if pfPos a then "IN" else "OUT"

/-- `os.path.splitext(...)[1]` on the lowered filename: the extension from
the last dot of the basename, ignoring leading dots. -/
def afterLastSlash (cs : List Char) : List Char :=
  (cs.reverse.takeWhile (fun c => c ≠ '/')).reverse

/-- `os.path.splitext(name)[1]`. -/
def extOf (name : String) : String :=
  let base := afterLastSlash name.toList
  let preDots := base.takeWhile (fun c => c = '.')
  let revRest := (base.drop preDots.length).reverse
  match findIdxQ (fun c => c = '.') revRest with
  | none => ""
  | some i => ⟨'.' :: (revRest.take i).reverse⟩

/-- The outcome of each decoder the Loader may call.  The decoders
themselves (pandas/xlsx2csv on the raw bytes) are outside the embedded
code, so `load_spreadsheet` is parametrized by their results on the given
input; `.error m` carries the stringified exception `{e}`. -/
structure DecEnv where
  openpyxl : Except String RawTable
  xlrd : Except String RawTable
  pyxlsb : Except String RawTable
  csvU8 : Except String RawTable
  csvCp949 : Except String RawTable
  csvEucKr : Except String RawTable
  xlsxToCsv : Except String RawTable
  csvFinal : Except String RawTable

/-- The decoder attempts of utils.py 42-88 for a given extension, in
program order, with the error tags of the `errors.append` calls. -/
def loaderChain (ext : String) (env : DecEnv) : List (String × Except String RawTable) :=
  (if ext = ".xlsx" || ext = ".xlsm" || ext = ".xltx" || ext = ".xltm" || ext = "" then
    [("openpyxl", env.openpyxl)] else []) ++
  (if ext = ".xls" then [("xlrd", env.xlrd)] else []) ++
  (if ext = ".xlsb" then [("pyxlsb", env.pyxlsb)] else []) ++
  (if ext = ".csv" then
    [("csv(utf-8-sig)", env.csvU8), ("csv(cp949)", env.csvCp949),
     ("csv(euc-kr)", env.csvEucKr)] else []) ++
  [("xlsx2csv", env.xlsxToCsv), ("csv-final", env.csvFinal)]

/-- The try/except cascade: return the first success, else collect
`"tag: message"` and finally raise the aggregate (utils.py 90). -/
def runChain : List (String × Except String RawTable) → List String → Except String RawTable
  | [], errs => .error ("스프레드시트 파싱 실패 → " ++ joinSep " | " errs)
  | (tag, d) :: rest, errs =>
    match d with
    | .ok tab => .ok tab
    | .error m => runChain rest (errs ++ [tag ++ ": " ++ m])

/-- `load_spreadsheet` (utils.py 37-90). -/
def load_spreadsheet (env : DecEnv) (filename : String) : Except String RawTable :=
  runChain (loaderChain (extOf (lowerStr filename)) env) []

/-- First successful decoder result of a chain. -/
def firstOkQ : List (String × Except String RawTable) → Option RawTable
  | [] => none
  | (_, .ok tab) :: _ => some tab
  | (_, .error _) :: rest => firstOkQ rest

/-- The tagged failure messages of a chain's failing decoders, in order. -/
def failMsgs : List (String × Except String RawTable) → List String
  | [] => []
  | (tag, .error m) :: rest => (tag ++ ": " ++ m) :: failMsgs rest
  | (_, .ok _) :: rest => failMsgs rest

/-- Left-pad with zeros to width `k`. -/
def natPad (k n : ℕ) : String :=
  let s := toString n
  ⟨List.replicate (k - s.length) '0'⟩ ++ s

/-- `date.isoformat()`. -/
def isoFmt (d : PDate) : String :=
  natPad 4 d.year ++ "-" ++ natPad 2 d.month ++ "-" ++ natPad 2 d.day

/-- Round half to even to an integer (Python float formatting on exactly
representable decimal inputs; binary-representation artifacts of `%.2f`
are outside this exact-decimal model). -/
def rhe (q : ℚ) : ℤ :=
  if Rat.blt (qSub q (Rat.normalize (Rat.floor q) 1 one_ne_zero)) halfQ then Rat.floor q
  else if Rat.blt halfQ (qSub q (Rat.normalize (Rat.floor q) 1 one_ne_zero)) then Rat.floor q + 1
  else if Rat.floor q % 2 = 0 then Rat.floor q else Rat.floor q + 1

/-- `f"{x:.2f}"`. -/
def fmt2 (q : ℚ) : String :=
  (if Rat.blt q 0 then "-" else "") ++
    toString (rhe (qMulNat (if Rat.blt q 0 then qNeg q else q) 100) / 100) ++ "." ++
    natPad 2 ((rhe (qMulNat (if Rat.blt q 0 then qNeg q else q) 100)) % 100).toNat

/-- `f"{x:.0f}"`. -/
def fmt0 (q : ℚ) : String :=
  (if Rat.blt q 0 then "-" else "") ++
    toString (rhe (if Rat.blt q 0 then qNeg q else q))

/-- `(description or "").strip().lower()` — the canonical form of the
description and branch fields. -/
def canonLT (s : Option String) : String := lowerStr (pyStrip (s.getD ""))

/-- The canonical balance field: rounded integer, or "" when absent. -/
def balCanon (b : Option ℚ) : String :=
  match b with
  | none => ""
  | some q => fmt0 q

/-- `make_fingerprint` (main.py 43-48), modelled as the SHA-256 *preimage*
`f"{iso}|{amount:.2f}|{d}|{b}|{bal}"`: SHA-256 is deterministic, so equal
preimages give equal digests, and distinct preimages give distinct digests
up to hash collisions (the collision-resistance the spec assumes). -/
def make_fingerprint (dt : PDate) (amount : ℚ) (descr branch : Option String)
    (balance : Option ℚ) : String :=
  isoFmt dt ++ "|" ++ fmt2 amount ++ "|" ++ canonLT descr ++ "|" ++
    canonLT branch ++ "|" ++ balCanon balance

/-- Decidable equality for `Except` (not provided by core). -/
def exceptDecEq [DecidableEq ε] [DecidableEq α] : DecidableEq (Except ε α) :=
  fun a b =>
    match a, b with
    | .ok x, .ok y =>
      if h : x = y then .isTrue (by rw [h]) else .isFalse (fun hh => h (Except.ok.inj hh))
    | .error e, .error f =>
      if h : e = f then .isTrue (by rw [h]) else .isFalse (fun hh => h (Except.error.inj hh))
    | .ok _, .error _ => .isFalse (fun hh => Except.noConfusion hh)
    | .error _, .ok _ => .isFalse (fun hh => Except.noConfusion hh)

instance [DecidableEq ε] [DecidableEq α] : DecidableEq (Except ε α) := exceptDecEq

/-! Concrete instances used by witnesses and counterexamples. -/

/-- A record whose description contains "a". -/
def c1Row : CRecord := ⟨some "xax", none, none⟩

/-- A rule with a present-but-empty flat category and no hierarchy. -/
def c1Rule : CRule := ⟨some "a", some "description", some "", none, none, none, true⟩

/-- The spec's example rule: 스타벅스 → 카페 on the vendor field. -/
def starbucksRule : CRule := ⟨some "스타벅스", some "vendor", some "카페", none, none, none, false⟩

/-- A well-formed Woori table with one deposit row. -/
def c2T : RawTable := ⟨7, [
  [some "거래일시", some "적요", some "기재내용", some "지급(원)", some "입금(원)",
   some "거래후 잔액(원)", some "취급점"],
  [some "2024-01-05", some "타행이체", some "급여", some "0", some "5,000원",
   some "100", some "본점"]]⟩

/-- The unified row `parse_woori_excel` produces from `c2T`. -/
def c2Row : URow :=
  ⟨some ⟨2024, 1, 5⟩, some "급여", .val 5000, .val 100, some (some "본점"),
   some "IN", some (some "타행이체"), some (.val 5000), some (.val 0)⟩

/-- A single row whose only keyword hits are two *date* cells. -/
def c4Bad : RawTable := ⟨2, [[some "거래일", some "일자"]]⟩

/-- Three non-qualifying rows, then the spec's example header row. -/
def c4T : RawTable := ⟨4, [
  [some "메모만", none, none, none],
  [some "1", some "2", none, none],
  [some "가나다", some "x", none, none],
  [some "거래일", some "적요", some "입금", some "출금"]]⟩

/-- A valid Woori layout whose 지급(원) data cell is not numeric. -/
def c5Bad : RawTable := ⟨7, [
  [some "거래일시", some "적요", some "기재내용", some "지급(원)", some "입금(원)",
   some "거래후 잔액(원)", some "취급점"],
  [some "2024-01-05", some "x", some "y", some "abc", some "0", some "0", some "b"]]⟩

/-- A five-column table without any bank signature. -/
def c5T : RawTable := ⟨5, [[some "아무", some "것", some "도", some "아님", some "x"]]⟩

/-- A Woori table whose data row has the non-empty, unparseable date "hello". -/
def c6Bad : RawTable := ⟨7, [
  [some "거래일시", some "적요", some "기재내용", some "지급(원)", some "입금(원)",
   some "거래후 잔액(원)", some "취급점"],
  [some "hello", some "x", some "y", some "0", some "0", some "0", some "b"]]⟩

/-- The row `parse_woori_excel` keeps for `c6Bad`: present in the output
with a NaT date instead of being dropped. -/
def c6BadRow : URow :=
  ⟨none, some "y", .val 0, .val 0, some (some "b"), some "OUT",
   some (some "x"), some (.val 0), some (.val 0)⟩

/-- A well-formed Woori table with one withdrawal row. -/
def c6T : RawTable := ⟨7, [
  [some "거래일시", some "적요", some "기재내용", some "지급(원)", some "입금(원)",
   some "거래후 잔액(원)", some "취급점"],
  [some "2024-03-02", some "체크카드", some "커피", some "1,000원", some "0",
   some "50", some "강남"]]⟩

/-- The unified row `parse_woori_excel` produces from `c6T`. -/
def c6Row : URow :=
  ⟨some ⟨2024, 3, 2⟩, some "커피", .val (-1000), .val 50, some (some "강남"),
   some "OUT", some (some "체크카드"), some (.val 0), some (.val 1000)⟩

/-- A generic table with date and description columns but no amount-like
column at all. -/
def c7T : RawTable := ⟨3, [
  [some "거래일", some "내용", some "비고"],
  [some "2024-01-05", some "x", some "y"]]⟩

/-- A generic table with a recognized balance column whose second data row
(unparseable date, blank description) is dropped by the row filter. -/
def c10T : RawTable := ⟨4, [
  [some "거래일", some "내용", some "입금", some "잔액"],
  [some "2024-01-05", some "급여", some "1000", some "10"],
  [some "x", some "", some "5", some "20"]]⟩

/-! Helper lemmas. -/

theorem findIdxQ_some_iff (p : α → Bool) (l : List α) (i : ℕ) :
    findIdxQ p l = some i ↔
      (∃ a, l.get? i = some a ∧ p a = true) ∧
        ∀ j, j < i → ∀ b, l.get? j = some b → p b = false := by
  induction l generalizing i with
  | nil => simp [findIdxQ]
  | cons a t ih =>
    simp only [findIdxQ]
    by_cases hp : p a = true
    · rw [if_pos hp]
      constructor
      · intro h
        injection h with h
        subst h
        exact ⟨⟨a, rfl, hp⟩, fun j hj b _ => absurd hj (Nat.not_lt_zero j)⟩
      · rintro ⟨⟨b, hb, hpb⟩, hall⟩
        match i with
        | 0 => rfl
        | n + 1 =>
          have h0 := hall 0 (Nat.succ_pos n) a rfl
          rw [hp] at h0
          cases h0
    · rw [if_neg hp]
      match i with
      | 0 =>
        constructor
        · intro h
          cases hf : findIdxQ p t <;> rw [hf] at h <;> simp at h
        · rintro ⟨⟨b, hb, hpb⟩, _⟩
          simp only [List.get?] at hb
          injection hb with hb
          subst hb
          exact absurd hpb hp
      | n + 1 =>
        have hmap : (findIdxQ p t).map (· + 1) = some (n + 1) ↔ findIdxQ p t = some n := by
          cases hf : findIdxQ p t <;> simp [hf]
        rw [hmap, ih n]
        constructor
        · rintro ⟨hex, hall⟩
          refine ⟨hex, fun j hj b hb => ?_⟩
          match j with
          | 0 =>
            simp only [List.get?] at hb
            injection hb with hb
            subst hb
            exact Bool.eq_false_iff.mpr hp
          | k + 1 =>
            exact hall k (Nat.lt_of_succ_lt_succ hj) b hb
        · rintro ⟨hex, hall⟩
          exact ⟨hex, fun k hk b hb => hall (k + 1) (Nat.succ_lt_succ hk) b hb⟩

theorem traverseE_len (f : α → Except ε β) (l : List α) (res : List β)
    (h : traverseE f l = .ok res) : res.length = l.length := by
  induction l generalizing res with
  | nil =>
    simp only [traverseE] at h
    injection h with h
    subst h
    rfl
  | cons a t ih =>
    simp only [traverseE] at h
    cases hf : f a <;> rw [hf] at h
    · cases h
    · cases ht : traverseE f t <;> rw [ht] at h
      · cases h
      · injection h with h
        subst h
        simp [ih _ ht]

theorem filter_zip_fst_len (p : α → Bool) :
    ∀ (as : List α) (bs : List β), as.length = bs.length →
      ((as.zip bs).filter (fun x => p x.1)).length = (as.filter p).length := by
  intro as
  induction as with
  | nil => intro bs _; simp
  | cons a t ih =>
    intro bs h
    cases bs with
    | nil => simp at h
    | cons b bt =>
      simp only [List.zip_cons_cons, List.filter_cons]
      cases hp : p a <;>
        simp [hp, ih bt (by simpa using h)]

theorem zip_map_snd_eq : ∀ (as : List α) (bs : List β), as.length = bs.length →
    (as.zip bs).map Prod.snd = bs := by
  intro as
  induction as with
  | nil =>
    intro bs h
    cases bs with
    | nil => rfl
    | cons b bt => simp at h
  | cons a t ih =>
    intro bs h
    cases bs with
    | nil => simp at h
    | cons b bt => simp [ih bt (by simpa using h)]

theorem strExt {a b : String} (h : a.data = b.data) : a = b := by
  cases a
  cases b
  simp only at h
  rw [h]

theorem strDataAppend (a b : String) : (a ++ b).data = a.data ++ b.data := rfl

theorem listAppendCancelRight {x y s : List Char} (h : x ++ s = y ++ s) : x = y := by
  have hl : x.length = y.length := by
    have hc := congrArg List.length h
    simp only [List.length_append] at hc
    omega
  exact (List.append_inj h hl).1

/-- C1 counterexample: the first (and only) rule fires on the record and its
flat category is the non-null string `""`, yet `apply_rules` returns the
default category "미분류" instead of that flat category — Python `or`
treats the empty string as absent, contradicting the claim's "flat
category, else deepest non-null level" reading. -/
theorem C1_counterexample :
    ruleHit c1Row c1Rule = true ∧
    c1Rule.category = some "" ∧
    c1Rule.category ≠ none ∧
    (apply_rules c1Row [c1Rule]).category = "미분류" ∧
    ("미분류" : String) ≠ "" := by
  refine ⟨by decide, by decide, by decide, by decide, by decide⟩

/-- C1 (amended): `apply_rules` returns the result of the first rule in
list order with a non-empty keyword whose lowered keyword occurs in the
field selected by its target (description, memo, vendor, or any of the
three for target "any"/absent); the result copies the rule's hierarchy
levels and fixed flag, and its category is the first *non-empty* value of
flat category, l3, l2, l1 (a present-but-empty string falls through, which
is the only change from the original claim), else "미분류"; no match gives
the default result.  The spec's two worked examples are included. -/
theorem C1_amended :
    (∀ row rules, apply_rules row rules =
      match findFirst (ruleHit row) rules with
      | some r => resultOfRule r
      | none => defaultCResult) ∧
    (∀ row r rest, ruleHit row r = true →
      apply_rules row (r :: rest) = resultOfRule r) ∧
    (∀ r, resultOfRule r =
      { category := pyOrChain [r.category, r.category_l3, r.category_l2, r.category_l1] "미분류",
        category_l1 := r.category_l1, category_l2 := r.category_l2,
        category_l3 := r.category_l3, is_fixed := r.is_fixed }) ∧
    apply_rules ⟨none, none, some "스타벅스"⟩ [starbucksRule] =
      ⟨"카페", none, none, none, false⟩ ∧
    apply_rules ⟨some "cu", none, some "cu"⟩ [starbucksRule] = defaultCResult := by
  refine ⟨?_, ?_, fun r => rfl, by decide, by decide⟩
  · intro row rules
    induction rules with
    | nil => rfl
    | cons r rest ih =>
      simp only [apply_rules, findFirst]
      by_cases h : ruleHit row r = true
      · rw [if_pos h, if_pos h]
      · rw [if_neg h, if_neg h, ih]
  · intro row r rest h
    simp only [apply_rules, if_pos h]

/-- C1 witness: the first-match clause of `C1_amended` applied to the
Starbucks rule on a vendor string that contains the keyword. -/
theorem C1_witness :
    apply_rules ⟨none, none, some "스타벅스 역삼점"⟩ [starbucksRule] =
      resultOfRule starbucksRule :=
  C1_amended.2.1 ⟨none, none, some "스타벅스 역삼점"⟩ starbucksRule [] (by decide)

theorem memZipLeft : ∀ (as : List α) (bs : List β) (x : α × β), x ∈ as.zip bs → x.1 ∈ as := by
  intro as
  induction as with
  | nil => intro bs x h; simp [List.zip] at h
  | cons a t ih =>
    intro bs x h
    cases bs with
    | nil => simp [List.zip] at h
    | cons b bt =>
      simp only [List.zip_cons_cons, List.mem_cons] at h
      rcases h with h | h
      · subst h; exact List.mem_cons_self _ _
      · exact List.mem_cons_of_mem _ (ih bt x h)

theorem woori_ok_shape (t : RawTable) (rows : List URow)
    (h : parse_woori_excel t = .ok (some rows)) :
    ∃ outs ins bals,
      convCol (wooriDataRows t) (colIdxQ (wooriCols t) "지급(원)") = .ok outs ∧
      convCol (wooriDataRows t) (colIdxQ (wooriCols t) "입금(원)") = .ok ins ∧
      convCol (wooriDataRows t) (colIdxQ (wooriCols t) "거래후 잔액(원)") = .ok bals ∧
      rows = (((wooriDataRows t).zip (outs.zip (ins.zip bals))).filter
               (fun q => (cellAt q.1 (colIdxQ (wooriCols t) "거래일시")).isSome)).map
             (fun q => mkWooriRow q.1 (colIdxQ (wooriCols t) "거래일시")
                (colIdxQ (wooriCols t) "적요") (colIdxQ (wooriCols t) "기재내용")
                (colIdxQ (wooriCols t) "취급점") q.2.1 q.2.2.1 q.2.2.2) := by
  unfold parse_woori_excel at h
  split at h
  · simp at h
  · split at h
    · simp at h
    · split at h
      · simp at h
      · split at h
        · simp at h
        · split at h
          · simp at h
          · split at h
            · simp at h
            · rename_i x2 outs houts x1 ins hins x0 bals hbals
              injection h with h
              injection h with h
              exact ⟨outs, ins, bals, houts, hins, hbals, h.symm⟩

theorem kb_ok_shape (t : RawTable) (rows : List URow)
    (h : parse_kb_excel t = .ok (some rows)) :
    ∃ outs ins bals,
      convCol (kbDataRows t) (colIdxQ (kbCols t) "출금액(원)") = .ok outs ∧
      convCol (kbDataRows t) (colIdxQ (kbCols t) "입금액(원)") = .ok ins ∧
      convCol (kbDataRows t) (colIdxQ (kbCols t) "잔액(원)") = .ok bals ∧
      rows = (((kbDataRows t).zip (outs.zip (ins.zip bals))).filter
               (fun q => (cellAt q.1 (colIdxQ (kbCols t) "거래일시")).isSome)).map
             (fun q => mkKbRow q.1 (colIdxQ (kbCols t) "거래일시")
                (colIdxQ (kbCols t) "보낸분/받는분") q.2.1 q.2.2.1 q.2.2.2) := by
  unfold parse_kb_excel at h
  split at h
  · simp at h
  · split at h
    · simp at h
    · split at h
      · simp at h
      · split at h
        · simp at h
        · split at h
          · simp at h
          · split at h
            · simp at h
            · rename_i x2 outs houts x1 ins hins x0 bals hbals
              injection h with h
              injection h with h
              exact ⟨outs, ins, bals, houts, hins, hbals, h.symm⟩

theorem mkWooriRow_tx (src : List PCell) (jd jt jds jbr : ℕ) (o i b : PFloat) :
    ((mkWooriRow src jd jt jds jbr o i b).tx_type = some "IN" ↔
      pfPos (mkWooriRow src jd jt jds jbr o i b).amount = true) := by
  show (some (if pfPos (psub i o) then "IN" else "OUT") = some "IN") ↔
    pfPos (psub i o) = true
  cases hp : pfPos (psub i o) <;> simp [hp]

theorem mkKbRow_tx (src : List PCell) (jd jds : ℕ) (o i b : PFloat) :
    ((mkKbRow src jd jds o i b).tx_type = some "IN" ↔
      pfPos (mkKbRow src jd jds o i b).amount = true) := by
  show (some (if pfPos (psub i o) then "IN" else "OUT") = some "IN") ↔
    pfPos (psub i o) = true
  cases hp : pfPos (psub i o) <;> simp [hp]

theorem pfNeg_pfPos_false (a : PFloat) (h : pfNeg a = true) : pfPos a = false := by
  cases a with
  | nan => rfl
  | pinf => cases h
  | ninf => rfl
  | val q =>
    simp only [pfNeg, decide_eq_true_eq] at h
    simp only [pfPos, decide_eq_false_iff_not]
    linarith

/-- C2: every unified record produced by the Woori detector, the KB
detector, or the upload handler's tx_type backfill satisfies
`tx_type = "IN"` iff its amount is `> 0` under Python float comparison
(`pfPos`, which is false for 0, NaN and -inf); in particular every
negative amount gets `"OUT"`. -/
theorem C2_tx_type_invariant :
    (∀ t rows, parse_woori_excel t = .ok (some rows) →
       ∀ r ∈ rows, (r.tx_type = some "IN" ↔ pfPos r.amount = true)) ∧
    (∀ t rows, parse_kb_excel t = .ok (some rows) →
       ∀ r ∈ rows, (r.tx_type = some "IN" ↔ pfPos r.amount = true)) ∧
    (∀ a, backfillTxType a = "IN" ↔ pfPos a = true) ∧
    (∀ t rows, parse_woori_excel t = .ok (some rows) →
       ∀ r ∈ rows, pfNeg r.amount = true → r.tx_type = some "OUT") ∧
    (∀ t rows, parse_kb_excel t = .ok (some rows) →
       ∀ r ∈ rows, pfNeg r.amount = true → r.tx_type = some "OUT") ∧
    (∀ a, pfNeg a = true → backfillTxType a = "OUT") := by
  have hw : ∀ t rows, parse_woori_excel t = .ok (some rows) →
      ∀ r ∈ rows, (r.tx_type = some "IN" ↔ pfPos r.amount = true) := by
    intro t rows h r hr
    obtain ⟨outs, ins, bals, _, _, _, hshape⟩ := woori_ok_shape t rows h
    subst hshape
    obtain ⟨q, _, rfl⟩ := List.mem_map.mp hr
    exact mkWooriRow_tx _ _ _ _ _ _ _ _
  have hk : ∀ t rows, parse_kb_excel t = .ok (some rows) →
      ∀ r ∈ rows, (r.tx_type = some "IN" ↔ pfPos r.amount = true) := by
    intro t rows h r hr
    obtain ⟨outs, ins, bals, _, _, _, hshape⟩ := kb_ok_shape t rows h
    subst hshape
    obtain ⟨q, _, rfl⟩ := List.mem_map.mp hr
    exact mkKbRow_tx _ _ _ _ _ _
  have hb : ∀ a, backfillTxType a = "IN" ↔ pfPos a = true := by
    intro a
    unfold backfillTxType
    cases hp : pfPos a <;> simp [hp]
  refine ⟨hw, hk, hb, ?_, ?_, ?_⟩
  · intro t rows h r hr hneg
    have hiff := hw t rows h r hr
    obtain ⟨outs, ins, bals, _, _, _, hshape⟩ := woori_ok_shape t rows h
    subst hshape
    obtain ⟨q, _, rfl⟩ := List.mem_map.mp hr
    have hfalse := pfNeg_pfPos_false _ hneg
    show some (if pfPos (psub q.2.2.1 q.2.1) then "IN" else "OUT") = some "OUT"
    rw [show pfPos (psub q.2.2.1 q.2.1) = pfPos (mkWooriRow q.1 (colIdxQ (wooriCols t) "거래일시")
      (colIdxQ (wooriCols t) "적요") (colIdxQ (wooriCols t) "기재내용")
      (colIdxQ (wooriCols t) "취급점") q.2.1 q.2.2.1 q.2.2.2).amount from rfl, hfalse]
    rfl
  · intro t rows h r hr hneg
    obtain ⟨outs, ins, bals, _, _, _, hshape⟩ := kb_ok_shape t rows h
    subst hshape
    obtain ⟨q, _, rfl⟩ := List.mem_map.mp hr
    have hfalse := pfNeg_pfPos_false _ hneg
    show some (if pfPos (psub q.2.2.1 q.2.1) then "IN" else "OUT") = some "OUT"
    rw [show pfPos (psub q.2.2.1 q.2.1) = pfPos (mkKbRow q.1 (colIdxQ (kbCols t) "거래일시")
      (colIdxQ (kbCols t) "보낸분/받는분") q.2.1 q.2.2.1 q.2.2.2).amount from rfl, hfalse]
    rfl
  · intro a h
    unfold backfillTxType
    rw [pfNeg_pfPos_false a h]
    rfl

/-- C2 witness: the invariant instantiated on a concrete Woori upload whose
single record has amount 5000 and tx_type "IN". -/
theorem C2_witness : (c2Row.tx_type = some "IN" ↔ pfPos c2Row.amount = true) :=
  C2_tx_type_invariant.1 c2T [c2Row] (by decide) c2Row (List.mem_singleton.mpr rfl)

/-- C3: `_parse_money` is total with the silent-failure-to-zero policy —
the four example vectors of the spec, 0.0 for a None/NaN input, 0.0 for an
empty remainder after stripping ₩/원/commas/whitespace, and 0.0 whenever
`float()` rejects the stripped remainder; otherwise the `float()` value. -/
theorem C3_parse_money_policy :
    parse_money (some "1,234,500원") = .val 1234500 ∧
    parse_money (some "-") = .val 0 ∧
    parse_money (some "") = .val 0 ∧
    parse_money (some "₩ 1,000") = .val 1000 ∧
    parse_money none = .val 0 ∧
    (∀ s, stripMoney s = "" → parse_money (some s) = .val 0) ∧
    (∀ s, pyFloat? (stripMoney s) = none → parse_money (some s) = .val 0) ∧
    (∀ s p, pyFloat? (stripMoney s) = some p → stripMoney s ≠ "" →
      parse_money (some s) = p) := by
  refine ⟨by decide, by decide, by decide, by decide, rfl, ?_, ?_, ?_⟩
  · intro s h
    simp [parse_money, h]
  · intro s h
    by_cases he : stripMoney s = "" <;> simp [parse_money, he, h]
  · intro s p h hne
    simp [parse_money, hne, h]

/-- C3 witness: the non-numeric remainder "abc" is silently coerced to 0. -/
theorem C3_witness :
    pyFloat? (stripMoney "abc") = none ∧ parse_money (some "abc") = .val 0 :=
  ⟨by decide, C3_parse_money_policy.2.2.2.2.2.2.1 "abc" (by decide)⟩

theorem get?_take_eq (l : List α) (n i : ℕ) (h : i < n) :
    (l.take n).get? i = l.get? i := by
  induction l generalizing n i with
  | nil => simp
  | cons a t ih =>
    cases n with
    | zero => exact absurd h (Nat.not_lt_zero i)
    | succ m =>
      cases i with
      | zero => rfl
      | succ k => exact ih m k (Nat.lt_of_succ_lt_succ h)

/-- C4 counterexample: a single row whose two cells both match only the
*date* keyword category scores 2 total hits and IS selected as header by
`_guess_header_row` — the claim's "≥ 2 distinct category hits" (under
which this row must not be selected) does not describe the code, which
counts total hits. -/
theorem C4_counterexample :
    guessHeaderRow c4Bad = some 0 ∧
    kwDate "거래일" = true ∧ kwDate "일자" = true ∧
    kwDesc "거래일" = false ∧ kwAmt "거래일" = false ∧
    kwDep "거래일" = false ∧ kwWd "거래일" = false ∧
    kwDesc "일자" = false ∧ kwAmt "일자" = false ∧
    kwDep "일자" = false ∧ kwWd "일자" = false := by
  refine ⟨by decide, by decide, by decide, by decide, by decide, by decide,
    by decide, by decide, by decide, by decide, by decide⟩

/-- C4 (amended): `_guess_header_row` scans at most the first 80 rows and
returns the first index whose *total* keyword-hit count over the five
categories (a cell contributing once per category it matches, same-category
repeats included) is at least 2; the first qualifying row wins even if a
later row scores higher.  The claim's example row [거래일, 적요, 입금,
출금] qualifies (see the witness); only the "distinct categories" reading
is dropped. -/
theorem C4_amended :
    (∀ t i, guessHeaderRow t = some i →
       i < 80 ∧ i < t.rows.length ∧ 2 ≤ rowHits (rowAt t i) ∧
       ∀ j, j < i → rowHits (rowAt t j) < 2) ∧
    (∀ t i, i < 80 → i < t.rows.length → 2 ≤ rowHits (rowAt t i) →
       (∀ j, j < i → rowHits (rowAt t j) < 2) → guessHeaderRow t = some i) := by
  constructor
  · intro t i h
    obtain ⟨⟨a, hget, hp⟩, hprev⟩ :=
      (findIdxQ_some_iff (fun r => decide (2 ≤ rowHits r)) (t.rows.take 80) i).mp h
    have hlen : i < (t.rows.take 80).length := by
      by_contra hge
      rw [List.get?_eq_none.mpr (Nat.le_of_not_lt hge)] at hget
      cases hget
    rw [List.length_take] at hlen
    have hi80 : i < 80 := lt_of_lt_of_le hlen (min_le_left _ _)
    have hilen : i < t.rows.length := lt_of_lt_of_le hlen (min_le_right _ _)
    rw [get?_take_eq _ _ _ hi80] at hget
    refine ⟨hi80, hilen, ?_, ?_⟩
    · rw [rowAt, hget, Option.getD_some]
      exact of_decide_eq_true hp
    · intro j hj
      have hjlen : j < t.rows.length := lt_trans hj hilen
      obtain ⟨b, hb⟩ : ∃ b, t.rows.get? j = some b := by
        cases hg : t.rows.get? j with
        | none => rw [List.get?_eq_none] at hg; exact absurd hjlen (Nat.not_lt_of_le hg)
        | some b => exact ⟨b, rfl⟩
      have hb2 : (t.rows.take 80).get? j = some b := by
        rw [get?_take_eq _ _ _ (lt_trans hj hi80)]
        exact hb
      have := hprev j hj b hb2
      rw [rowAt, hb, Option.getD_some]
      simpa using this
  · intro t i hi80 hilen hscore hprev
    apply (findIdxQ_some_iff (fun r => decide (2 ≤ rowHits r)) (t.rows.take 80) i).mpr
    obtain ⟨a, ha⟩ : ∃ a, t.rows.get? i = some a := by
      cases hg : t.rows.get? i with
      | none => rw [List.get?_eq_none] at hg; exact absurd hilen (Nat.not_lt_of_le hg)
      | some a => exact ⟨a, rfl⟩
    refine ⟨⟨a, ?_, ?_⟩, ?_⟩
    · rw [get?_take_eq _ _ _ hi80]; exact ha
    · have : rowAt t i = a := by rw [rowAt, ha, Option.getD_some]
      rw [← this]
      exact decide_eq_true hscore
    · intro j hj b hb
      rw [get?_take_eq _ _ _ (lt_trans hj hi80)] at hb
      have : rowAt t j = b := by rw [rowAt, hb, Option.getD_some]
      have hlt := hprev j hj
      rw [this] at hlt
      simpa using Nat.not_le_of_lt hlt

/-- C4 witness: on a table whose rows 0-2 score under 2, the claim's
example header row [거래일, 적요, 입금, 출금] at index 3 is selected. -/
theorem C4_witness : guessHeaderRow c4T = some 3 :=
  C4_amended.2 c4T 3 (by decide) (by decide) (by decide)
    (fun j hj => by interval_cases j <;> decide)

/-- C5 counterexample: on a table with a valid Woori signature and all
required columns, a data cell "abc" under 지급(원) makes `.astype(float)`
raise — `parse_woori_excel` does not return a table or `None`, it
propagates a `ValueError`, contrary to the claim's "never raises ... for
any content of the data cells below the header". -/
theorem C5_counterexample :
    parse_woori_excel c5Bad =
      .error (.valueCast "could not convert string to float: \x27abc\x27") := by
  decide

/-- C5 (amended): each bank detector is exception-free while *declining* —
fewer than 5 columns, a missing signature row, or missing required columns
after trimming all yield `None` and never raise — but once a header is
accepted, the numeric-cleaning step `.astype(float)` raises a `ValueError`
on any money cell whose cleaned text `float()` rejects (see the
counterexample), so "never raises for any content of the data cells" must
be weakened to the decline cases. -/
theorem C5_amended :
    (∀ t, t.ncols < 5 → parse_woori_excel t = .ok none) ∧
    (∀ t, wooriHdrIdx? t = none → parse_woori_excel t = .ok none) ∧
    (∀ t, wooriNeeded.all (fun n => (wooriCols t).contains n) = false →
      parse_woori_excel t = .ok none) ∧
    (∀ t, t.ncols < 5 → parse_kb_excel t = .ok none) ∧
    (∀ t, kbHdrIdx? t = none → parse_kb_excel t = .ok none) ∧
    (∀ t, kbNeeded.all (fun n => (kbCols t).contains n) = false →
      parse_kb_excel t = .ok none) := by
  refine ⟨?_, ?_, ?_, ?_, ?_, ?_⟩
  · intro t h
    unfold parse_woori_excel
    rw [if_pos h]
  · intro t h
    unfold parse_woori_excel
    rw [h]
    split <;> rfl
  · intro t h
    unfold parse_woori_excel
    split
    · rfl
    · cases hh : wooriHdrIdx? t with
      | none => rfl
      | some i => rw [if_pos (by rw [h]; rfl)]
  · intro t h
    unfold parse_kb_excel
    rw [if_pos h]
  · intro t h
    unfold parse_kb_excel
    rw [h]
    split <;> rfl
  · intro t h
    unfold parse_kb_excel
    split
    · rfl
    · cases hh : kbHdrIdx? t with
      | none => rfl
      | some i => rw [if_pos (by rw [h]; rfl)]

/-- C5 witness: the no-signature decline case on a concrete 5-column
table. -/
theorem C5_witness : parse_woori_excel c5T = .ok none :=
  C5_amended.2.1 c5T (by decide)

/-- C6 counterexample: a Woori data row whose date cell holds the
non-empty, unparseable string "hello" is *kept* by the detector — the
output contains a row with a NaT (`none`) date — because `dropna` runs
before `to_datetime(errors="coerce")`; the claim says such rows are
dropped. -/
theorem C6_counterexample :
    parse_woori_excel c6Bad = .ok (some [c6BadRow]) ∧
    c6BadRow.date = none ∧
    cellAt (rowAt c6Bad 1) 0 = some "hello" ∧
    pdToDatetime? "hello" = none := by
  refine ⟨by decide, by decide, by decide, by decide⟩

/-- C6 (amended): in every table returned by a bank detector, exactly the
data rows whose date *cell is missing (NaN)* have been dropped; every
output row originates from a data row with a present date cell, and its
date is `to_datetime(errors="coerce")` of that cell — which is NaT
(`none`), not a drop, when the cell text does not parse as a date. -/
theorem C6_amended :
    (∀ t rows, parse_woori_excel t = .ok (some rows) →
       rows.length = ((wooriDataRows t).filter
         (fun r => (cellAt r (colIdxQ (wooriCols t) "거래일시")).isSome)).length ∧
       ∀ r ∈ rows, ∃ src ∈ wooriDataRows t,
         (cellAt src (colIdxQ (wooriCols t) "거래일시")).isSome = true ∧
         r.date = pdToDatetime? (pyStr (cellAt src (colIdxQ (wooriCols t) "거래일시")))) ∧
    (∀ t rows, parse_kb_excel t = .ok (some rows) →
       rows.length = ((kbDataRows t).filter
         (fun r => (cellAt r (colIdxQ (kbCols t) "거래일시")).isSome)).length ∧
       ∀ r ∈ rows, ∃ src ∈ kbDataRows t,
         (cellAt src (colIdxQ (kbCols t) "거래일시")).isSome = true ∧
         r.date = pdToDatetime? (pyStr (cellAt src (colIdxQ (kbCols t) "거래일시")))) := by
  constructor
  · intro t rows h
    obtain ⟨outs, ins, bals, ho, hi, hb, hshape⟩ := woori_ok_shape t rows h
    have hlo := traverseE_len _ _ _ ho
    have hli := traverseE_len _ _ _ hi
    have hlb := traverseE_len _ _ _ hb
    have hlz : (wooriDataRows t).length = (outs.zip (ins.zip bals)).length := by
      rw [List.length_zip, List.length_zip, hlo, hli, hlb]
      simp
    constructor
    · rw [hshape, List.length_map,
        filter_zip_fst_len (fun r => (cellAt r (colIdxQ (wooriCols t) "거래일시")).isSome)
          _ _ hlz]
    · intro r hr
      rw [hshape] at hr
      obtain ⟨q, hq, rfl⟩ := List.mem_map.mp hr
      have hq2 := List.mem_filter.mp hq
      exact ⟨q.1, memZipLeft _ _ _ hq2.1, hq2.2, rfl⟩
  · intro t rows h
    obtain ⟨outs, ins, bals, ho, hi, hb, hshape⟩ := kb_ok_shape t rows h
    have hlo := traverseE_len _ _ _ ho
    have hli := traverseE_len _ _ _ hi
    have hlb := traverseE_len _ _ _ hb
    have hlz : (kbDataRows t).length = (outs.zip (ins.zip bals)).length := by
      rw [List.length_zip, List.length_zip, hlo, hli, hlb]
      simp
    constructor
    · rw [hshape, List.length_map,
        filter_zip_fst_len (fun r => (cellAt r (colIdxQ (kbCols t) "거래일시")).isSome)
          _ _ hlz]
    · intro r hr
      rw [hshape] at hr
      obtain ⟨q, hq, rfl⟩ := List.mem_map.mp hr
      have hq2 := List.mem_filter.mp hq
      exact ⟨q.1, memZipLeft _ _ _ hq2.1, hq2.2, rfl⟩

/-- C6 witness: the row-count identity instantiated on a concrete Woori
table with one (kept) data row. -/
theorem C6_witness :
    ([c6Row] : List URow).length = ((wooriDataRows c6T).filter
      (fun r => (cellAt r (colIdxQ (wooriCols c6T) "거래일시")).isSome)).length :=
  (C6_amended.1 c6T [c6Row] (by decide)).1

theorem unify_generic_of (t : RawTable) (hw : parse_woori_excel t = .ok none)
    (hk : parse_kb_excel t = .ok none) : unify_columns t = unifyGeneric t := by
  unfold unify_columns
  rw [hw, hk]

theorem unifyGeneric_ok_shape (t : RawTable) (rows : List URow)
    (h : unifyGeneric t = .ok rows) :
    (genBalIdx? t ≠ none ∧ (genBalVals t).length = (genKeptSrc t).length ∧
      rows = ((genKeptSrc t).zip (genBalVals t)).map (fun p => mkGenRow t p.1 p.2)) ∨
    (genBalIdx? t = none ∧
      rows = (genKeptSrc t).map (fun r => mkGenRow t r (.val 0))) := by
  unfold unifyGeneric at h
  split at h
  · cases h
  · split at h
    · cases h
    · split at h
      · cases h
      · split at h
        · rename_i hbal
          split at h
          · rename_i hlen
            injection h with h
            exact Or.inl ⟨by rw [hbal]; simp, hlen, h.symm⟩
          · cases h
        · rename_i hbal
          injection h with h
          exact Or.inr ⟨hbal, h.symm⟩

/-- C7: in the generic fallback, every produced row's amount follows the
credit/debit rule — parsed(credit) − parsed(debit) with a missing side
read as the all-zero column — when either of those columns exists, else
the parsed generic amount column, and `unify_columns` fails with the
"금액 컬럼 없음" (no amount column) error when none of the three exists.
(`Nodup` on the header names reflects that pandas label access, which the
model resolves to the first matching column, is only faithful without
duplicate labels.) -/
theorem C7_generic_amount :
    (∀ t rows, parse_woori_excel t = .ok none → parse_kb_excel t = .ok none →
       (genCols t).Nodup → unify_columns t = .ok rows →
       ∀ r ∈ rows, ∃ src ∈ genData t, r.amount = genAmount t src) ∧
    (∀ t src, genDepIdx? t ≠ none ∨ genWdIdx? t ≠ none →
       genAmount t src = psub (optMoney src (genDepIdx? t)) (optMoney src (genWdIdx? t))) ∧
    (∀ t src j, genDepIdx? t = none → genWdIdx? t = none → genAmtIdx? t = some j →
       genAmount t src = parse_money (cellAt src j)) ∧
    (∀ t, parse_woori_excel t = .ok none → parse_kb_excel t = .ok none →
       genHdrIdx? t ≠ none → genDateIdx? t ≠ none → genDescIdx? t ≠ none →
       genDepIdx? t = none → genWdIdx? t = none → genAmtIdx? t = none →
       unify_columns t = .error .noAmountCol) ∧
    UErr.msg .noAmountCol = "금액 컬럼 없음" := by
  refine ⟨?_, ?_, ?_, ?_, rfl⟩
  · intro t rows hw hk _ h
    rw [unify_generic_of t hw hk] at h
    intro r hr
    rcases unifyGeneric_ok_shape t rows h with ⟨_, _, hshape⟩ | ⟨_, hshape⟩
    · rw [hshape] at hr
      obtain ⟨q, hq, rfl⟩ := List.mem_map.mp hr
      have h1 : q.1 ∈ genKeptSrc t := memZipLeft _ _ _ hq
      exact ⟨q.1, (List.mem_filter.mp h1).1, rfl⟩
    · rw [hshape] at hr
      obtain ⟨src, hsrc, rfl⟩ := List.mem_map.mp hr
      exact ⟨src, (List.mem_filter.mp hsrc).1, rfl⟩
  · intro t src h
    unfold genAmount
    cases hd : genDepIdx? t with
    | none =>
      cases hw : genWdIdx? t with
      | none => rcases h with h | h <;> [exact absurd hd h; exact absurd hw h]
      | some jw => rfl
    | some jd => cases hw : genWdIdx? t <;> rfl
  · intro t src j hd hw ha
    unfold genAmount
    rw [hd, hw, ha]
  · intro t hwo hkb hhdr hdate hdesc hd hw ha
    rw [unify_generic_of t hwo hkb]
    unfold unifyGeneric
    obtain ⟨i, hi⟩ := Option.ne_none_iff_exists'.mp hhdr
    rw [hi]
    have h1 : ((genDateIdx? t).isNone || (genDescIdx? t).isNone) = false := by
      obtain ⟨jd, hjd⟩ := Option.ne_none_iff_exists'.mp hdate
      obtain ⟨js, hjs⟩ := Option.ne_none_iff_exists'.mp hdesc
      rw [hjd, hjs]
      rfl
    rw [if_neg (by rw [h1]; exact Bool.false_ne_true)]
    rw [if_pos (by rw [hd, hw, ha]; rfl)]

/-- C7 witness: the no-amount-column failure on a concrete table whose
header has only date and description columns. -/
theorem C7_witness : unify_columns c7T = .error .noAmountCol :=
  C7_generic_amount.2.2.2.1 c7T (by decide) (by decide) (by decide) (by decide)
    (by decide) (by decide) (by decide) (by decide)

theorem runChain_spec :
    ∀ (chain : List (String × Except String RawTable)) (errs : List String),
      runChain chain errs =
        match firstOkQ chain with
        | some tab => .ok tab
        | none => .error ("스프레드시트 파싱 실패 → " ++ joinSep " | " (errs ++ failMsgs chain)) := by
  intro chain
  induction chain with
  | nil => intro errs; simp [runChain, firstOkQ, failMsgs]
  | cons p rest ih =>
    intro errs
    obtain ⟨tag, d⟩ := p
    cases d with
    | ok tab => simp [runChain, firstOkQ]
    | error m =>
      simp only [runChain, firstOkQ, failMsgs]
      rw [ih (errs ++ [tag ++ ": " ++ m])]
      cases firstOkQ rest <;> simp

/-- C8: `load_spreadsheet` returns the table of the first successful
decoder of the extension-dependent candidate chain (so no error escapes
when any decoder succeeds), and raises — only when every attempted decoder
failed — a single error that aggregates each attempted decoder's tagged
failure message joined by " | " after the fixed prefix. -/
theorem C8_loader_chain :
    ∀ (env : DecEnv) (fn : String),
      load_spreadsheet env fn =
        match firstOkQ (loaderChain (extOf (lowerStr fn)) env) with
        | some tab => .ok tab
        | none =>
          .error ("스프레드시트 파싱 실패 → " ++
            joinSep " | " (failMsgs (loaderChain (extOf (lowerStr fn)) env))) := by
  intro env fn
  unfold load_spreadsheet
  rw [runChain_spec]
  cases firstOkQ (loaderChain (extOf (lowerStr fn)) env) <;> simp

/-- C9 counterexample: the descriptions "A" and "a" differ, but the two
tuples fingerprint identically (description is canonicalized by
lower-casing before hashing), so "no two tuples differing in one field
fingerprint identically" is false as stated. -/
theorem C9_counterexample :
    make_fingerprint ⟨2024, 1, 5⟩ 1 (some "A") none none =
      make_fingerprint ⟨2024, 1, 5⟩ 1 (some "a") none none ∧
    (some "A" : Option String) ≠ (some "a" : Option String) :=
  ⟨by decide, by decide⟩

/-- C9 (amended): `make_fingerprint` is deterministic, and changing a
single field changes the digest *whenever the canonical form of that field
changes* — description/branch compared lower-cased and trimmed (absent as
empty), amount at 2-decimal precision, balance as rounded integer or
empty, date by its ISO form; fields that agree after canonicalization
yield identical digests (which forces the counterexample's weakening).
The digest is modelled by the SHA-256 preimage, so inequality is up to
hash collisions. -/
theorem C9_amended :
    (∀ dt a d b bal, make_fingerprint dt a d b bal = make_fingerprint dt a d b bal) ∧
    (∀ dt dt2 a d b bal, isoFmt dt ≠ isoFmt dt2 →
       make_fingerprint dt a d b bal ≠ make_fingerprint dt2 a d b bal) ∧
    (∀ dt a a2 d b bal, fmt2 a ≠ fmt2 a2 →
       make_fingerprint dt a d b bal ≠ make_fingerprint dt a2 d b bal) ∧
    (∀ dt a d d2 b bal, canonLT d ≠ canonLT d2 →
       make_fingerprint dt a d b bal ≠ make_fingerprint dt a d2 b bal) ∧
    (∀ dt a d b b2 bal, canonLT b ≠ canonLT b2 →
       make_fingerprint dt a d b bal ≠ make_fingerprint dt a d b2 bal) ∧
    (∀ dt a d b bal bal2, balCanon bal ≠ balCanon bal2 →
       make_fingerprint dt a d b bal ≠ make_fingerprint dt a d b bal2) ∧
    (∀ dt dt2 a a2 d d2 b b2 bal bal2,
       isoFmt dt = isoFmt dt2 → fmt2 a = fmt2 a2 → canonLT d = canonLT d2 →
       canonLT b = canonLT b2 → balCanon bal = balCanon bal2 →
       make_fingerprint dt a d b bal = make_fingerprint dt2 a2 d2 b2 bal2) := by
  refine ⟨fun _ _ _ _ _ => rfl, ?_, ?_, ?_, ?_, ?_, ?_⟩
  · intro dt dt2 a d b bal hne heq
    apply hne
    apply strExt
    have h2 := congrArg String.data heq
    simp only [make_fingerprint, strDataAppend, List.append_assoc] at h2
    exact listAppendCancelRight h2
  · intro dt a a2 d b bal hne heq
    apply hne
    apply strExt
    have h2 := congrArg String.data heq
    simp only [make_fingerprint, strDataAppend, List.append_assoc] at h2
    exact listAppendCancelRight (List.append_cancel_left (List.append_cancel_left h2))
  · intro dt a d d2 b bal hne heq
    apply hne
    apply strExt
    have h2 := congrArg String.data heq
    simp only [make_fingerprint, strDataAppend, List.append_assoc] at h2
    exact listAppendCancelRight (List.append_cancel_left (List.append_cancel_left
      (List.append_cancel_left (List.append_cancel_left h2))))
  · intro dt a d b b2 bal hne heq
    apply hne
    apply strExt
    have h2 := congrArg String.data heq
    simp only [make_fingerprint, strDataAppend, List.append_assoc] at h2
    exact listAppendCancelRight (List.append_cancel_left (List.append_cancel_left
      (List.append_cancel_left (List.append_cancel_left
        (List.append_cancel_left (List.append_cancel_left h2))))))
  · intro dt a d b bal bal2 hne heq
    apply hne
    apply strExt
    have h2 := congrArg String.data heq
    simp only [make_fingerprint, strDataAppend, List.append_assoc] at h2
    exact List.append_cancel_left (List.append_cancel_left
      (List.append_cancel_left (List.append_cancel_left
        (List.append_cancel_left (List.append_cancel_left
          (List.append_cancel_left (List.append_cancel_left h2)))))))
  · intro dt dt2 a a2 d d2 b b2 bal bal2 h1 h2 h3 h4 h5
    unfold make_fingerprint
    rw [h1, h2, h3, h4, h5]

/-- C9 witness: two canonically different descriptions produce different
digests. -/
theorem C9_witness :
    make_fingerprint ⟨2024, 1, 5⟩ 1 (some "coffee") none none ≠
      make_fingerprint ⟨2024, 1, 5⟩ 1 (some "tea") none none :=
  C9_amended.2.2.2.1 ⟨2024, 1, 5⟩ 1 (some "coffee") (some "tea") none none (by decide)

/-- C10: in the generic fallback, when one of the three recognized balance
headers is present and at least one data row was dropped by the
no-date-and-blank-description filter, the balance column assignment fails
— the balance list is built from *all* data rows but assigned to the
already-filtered, shorter frame — so `unify_columns` raises the pandas
length-mismatch `ValueError`, an error outside the
HeaderNotFound/MissingColumn/NoAmountColumn taxonomy; the defaults-to-zero
branch is taken exactly when none of the three balance headers is
present. -/
theorem C10_balance_mismatch :
    (∀ t, parse_woori_excel t = .ok none → parse_kb_excel t = .ok none →
       (genCols t).Nodup → genHdrIdx? t ≠ none →
       genDateIdx? t ≠ none → genDescIdx? t ≠ none →
       ((genDepIdx? t).isNone && (genWdIdx? t).isNone && (genAmtIdx? t).isNone) = false →
       genBalIdx? t ≠ none →
       (genKeptSrc t).length < (genData t).length →
       unify_columns t =
         .error (.lengthMismatch (genBalVals t).length (genKeptSrc t).length)) ∧
    (∀ t, genBalIdx? t ≠ none → (genBalVals t).length = (genData t).length) ∧
    (∀ t rows, parse_woori_excel t = .ok none → parse_kb_excel t = .ok none →
       genBalIdx? t = none → unify_columns t = .ok rows →
       ∀ r ∈ rows, r.balance = .val 0) ∧
    (∀ a b cs, UErr.lengthMismatch a b ≠ .headerNotFound ∧
       UErr.lengthMismatch a b ≠ .noAmountCol ∧
       UErr.lengthMismatch a b ≠ .missingCols cs) := by
  have hblen : ∀ t, genBalIdx? t ≠ none → (genBalVals t).length = (genData t).length := by
    intro t h
    obtain ⟨jb, hjb⟩ := Option.ne_none_iff_exists'.mp h
    unfold genBalVals
    rw [hjb]
    exact List.length_map _ _
  refine ⟨?_, hblen, ?_, ?_⟩
  · intro t hw hk _ hhdr hdate hdesc hamt hbal hlt
    rw [unify_generic_of t hw hk]
    unfold unifyGeneric
    obtain ⟨i, hi⟩ := Option.ne_none_iff_exists'.mp hhdr
    rw [hi]
    have h1 : ((genDateIdx? t).isNone || (genDescIdx? t).isNone) = false := by
      obtain ⟨jd, hjd⟩ := Option.ne_none_iff_exists'.mp hdate
      obtain ⟨js, hjs⟩ := Option.ne_none_iff_exists'.mp hdesc
      rw [hjd, hjs]
      rfl
    rw [if_neg (by rw [h1]; exact Bool.false_ne_true)]
    rw [if_neg (by rw [hamt]; exact Bool.false_ne_true)]
    obtain ⟨jb, hjb⟩ := Option.ne_none_iff_exists'.mp hbal
    rw [hjb]
    have hlen := hblen t hbal
    rw [if_neg (by omega)]
  · intro t rows hw hk hbal h r hr
    rw [unify_generic_of t hw hk] at h
    rcases unifyGeneric_ok_shape t rows h with ⟨hne, _, _⟩ | ⟨_, hshape⟩
    · exact absurd hbal hne
    · rw [hshape] at hr
      obtain ⟨src, _, rfl⟩ := List.mem_map.mp hr
      rfl
  · intro a b cs
    exact ⟨fun h => UErr.noConfusion h, fun h => UErr.noConfusion h,
      fun h => UErr.noConfusion h⟩

/-- C10 witness: the length-mismatch failure on a concrete table whose
second data row (unparseable date, blank description) is dropped while the
balance list keeps both rows. -/
theorem C10_witness :
    unify_columns c10T =
      .error (.lengthMismatch (genBalVals c10T).length (genKeptSrc c10T).length) :=
  C10_balance_mismatch.1 c10T (by decide) (by decide) (by decide) (by decide)
    (by decide) (by decide) (by decide) (by decide) (by decide)
